import Mathlib

/-!
Verification of `src/src/components/graph-controls.js` (react-digraph zoom
controls): the slider/zoom mapping, the zoom-change gate, and the help-overlay
dismissal state machine.

Numbers (JS `number`) are modelled as rationals `ℚ`; the claims' "within
floating-point tolerance" equalities are proved exactly over `ℚ`.  The constant
`SLIDER_STEPS` is imported by the source from `../constants`, a file that is
not part of the sources here; it is therefore carried as an explicit parameter
`steps` (the spec fixes it only as an integer constant `STEPS > 0`).
-/

namespace GraphControls

/-- Rational model of the JS expression `x || 0` applied to a number `x`:
it yields `0` when `x` is `0` (the only falsy rational) and `x` otherwise. -/
def orZero (x : ℚ) : ℚ := if x = 0 then 0 else x

/-- `sliderToZoom` from graph-controls.js:
`(val * (maxZoom - minZoom)) / SLIDER_STEPS + minZoom`,
with `SLIDER_STEPS` passed as the parameter `steps`. -/
def sliderToZoom (val minZoom maxZoom steps : ℚ) : ℚ :=
  val * (maxZoom - minZoom) / steps + minZoom

/-- The in-range test of the `zoom` callback in graph-controls.js:
`zoomLevelNext <= (maxZoom || 0) && zoomLevelNext >= (minZoom || 0)`. -/
def inRangeGate (minZoom maxZoom zoomLevelNext : ℚ) : Bool :=
  decide (zoomLevelNext ≤ orZero maxZoom) && decide (orZero minZoom ≤ zoomLevelNext)

/-- The `zoom` callback of graph-controls.js.  It reads the slider value `val`
from the event, computes `zoomLevelNext = sliderToZoom(val, minZoom, maxZoom)`
and `delta = zoomLevelNext - zoomLevel`, and calls `modifyZoom(delta)` exactly
when the gate passes.  The returned `Option` records the calls to `modifyZoom`:
`some delta` means exactly one call with argument `delta`, `none` means no
call.  The callback touches no other state and cannot throw. -/
def zoom (minZoom maxZoom zoomLevel steps val : ℚ) : Option ℚ :=
  let zoomLevelNext := sliderToZoom val minZoom maxZoom steps
  let delta := zoomLevelNext - zoomLevel
  if inRangeGate minZoom maxZoom zoomLevelNext then some delta else none

/-- The spec's own formula for the inverse map, written from its words:
`toZoom(sliderPosition, min, max) = (sliderPosition * (max - min)) / STEPS + min`.
Used only to compare against `sliderToZoom` from the source. -/
def toZoom_spec (sliderPosition minZoom maxZoom steps : ℚ) : ℚ :=
  sliderPosition * (maxZoom - minZoom) / steps + minZoom

/-- Modelled from the spec: the forward map of the hook
`useZoomLevelToSliderValue` (file `src/hooks/useZoomLevelToSliderValue` is not
among the sources).  The spec gives
`toSlider(zoomLevel, min, max) = ((zoomLevel - min) / (max - min)) * STEPS`. -/
def toSlider (zoomLevel minZoom maxZoom steps : ℚ) : ℚ :=
  (zoomLevel - minZoom) / (maxZoom - minZoom) * steps

/-- `handleDocumentClick` from graph-controls.js.  `refCurrent` models whether
`helpContainerRef.current` is set, `targetInContainer` models the DOM
containment test `helpContainerRef.current.contains(e.target)`, and
`helpShowing` is the open/closed state before the event.  The handler runs
`if (!helpContainerRef.current.contains(e.target)) setHelpShowing(false)`;
when the ref is unset, evaluating `.contains` on it throws a TypeError,
modelled as `.error ()`.  Otherwise the result is the `helpShowing` state
after the handler. -/
def handleDocumentClick (refCurrent targetInContainer helpShowing : Bool) :
    Except Unit Bool :=
  if refCurrent then
    if !targetInContainer then Except.ok false
    else Except.ok helpShowing
  else Except.error ()

/-- The state of a `GraphControls` instance: whether it is mounted, the current
`showHelp` prop, the `helpShowing` React state (`true` = Open), whether the
document click listener is attached, and whether `helpContainerRef.current`
is set (the help container div is rendered exactly when `showHelp` holds). -/
structure CState where
  mounted : Bool
  showHelp : Bool
  helpShowing : Bool
  listener : Bool
  refSet : Bool
deriving DecidableEq, Repr

/-- The events that drive a `GraphControls` instance: a re-render with a new
`showHelp` prop value (refs are re-assigned and the `useEffect` with dependency
array `[showHelp]` re-runs), a press of the help toggle button, a document
click whose target is or is not inside the help container, and unmount. -/
inductive Ev where
  | rerender (showHelp : Bool)
  | toggle
  | docClick (targetInContainer : Bool)
  | unmount
deriving DecidableEq, Repr

/-- Mounting with a given `showHelp` prop: `useState(false)` initialises
`helpShowing` to `false`; the help container (and hence the ref) is rendered
iff `showHelp`; the mount effect attaches the listener iff `showHelp` (the
`!showHelp` branch removes and returns). -/
def mount (showHelp : Bool) : CState :=
  { mounted := true, showHelp := showHelp, helpShowing := false,
    listener := showHelp, refSet := showHelp }

/-- One event step of a `GraphControls` instance.  A re-render updates the prop,
the rendered ref, and (through the `[showHelp]` effect plus its cleanup) the
listener.  The toggle button exists only while `showHelp` renders it, and flips
`helpShowing`.  A document click reaches `handleDocumentClick` only while the
listener is attached; a thrown TypeError is propagated as `.error`.  Unmount
runs the effect cleanup, detaching the listener. -/
def step : Ev → CState → Except Unit CState
  | Ev.rerender sh, s =>
    if s.mounted then
      Except.ok { s with showHelp := sh, refSet := sh, listener := sh }
    else Except.ok s
  | Ev.toggle, s =>
    if s.mounted && s.showHelp then
      Except.ok { s with helpShowing := !s.helpShowing }
    else Except.ok s
  | Ev.docClick inside, s =>
    if s.listener then
      match handleDocumentClick s.refSet inside s.helpShowing with
      | Except.ok h => Except.ok { s with helpShowing := h }
      | Except.error u => Except.error u
    else Except.ok s
  | Ev.unmount, s =>
    if s.mounted then
      Except.ok { s with mounted := false, listener := false, refSet := false }
    else Except.ok s

/-- Run a list of events from a state, propagating a thrown exception. -/
def runFrom : CState → List Ev → Except Unit CState
  | s, [] => Except.ok s
  | s, e :: es =>
    match step e s with
    | Except.ok s' => runFrom s' es
    | Except.error u => Except.error u

/-- Run a list of events from a freshly mounted instance. -/
def run (showHelp : Bool) (es : List Ev) : Except Unit CState :=
  runFrom (mount showHelp) es

/-- Whether the help container (toggle button plus panel anchor) is rendered:
the JSX guards it with `showHelp && ...`. -/
def helpRendered (s : CState) : Bool := s.mounted && s.showHelp

/-- The wiring invariant of a `GraphControls` instance: the listener and the
ref both track `mounted && showHelp`.  The `[showHelp]` effect and the
conditional rendering of the help container keep both in lock step with the
prop, and the effect cleanup clears both on unmount. -/
def GoodState (s : CState) : Prop :=
  s.listener = (s.mounted && s.showHelp) ∧ s.refSet = (s.mounted && s.showHelp)

/-- With `showHelp` false the instance is inert: the effect's `!showHelp`
branch never attaches the listener, the help container (toggle button and
panel) is not rendered, and `helpShowing` never leaves its initial `false`. -/
def Inert (s : CState) : Prop :=
  s.showHelp = false ∧ s.listener = false ∧ s.helpShowing = false ∧ s.refSet = false

/-- `x || 0` on a rational is the identity: the fallback replaces the value
only when it is `0`, leaving it unchanged. -/
lemma orZero_eq (x : ℚ) : orZero x = x := by
  unfold orZero
  split <;> simp_all

/-- The gate passes exactly when `minZoom ≤ z ≤ maxZoom`. -/
lemma inRangeGate_iff (minZoom maxZoom z : ℚ) :
    inRangeGate minZoom maxZoom z = true ↔ (minZoom ≤ z ∧ z ≤ maxZoom) := by
  simp [inRangeGate, orZero_eq, and_comm]

lemma mount_good (sh : Bool) : GoodState (mount sh) := by
  cases sh <;> simp [GoodState, mount]

lemma step_good {e : Ev} {s t : CState} (hg : GoodState s)
    (h : step e s = Except.ok t) : GoodState t := by
  obtain ⟨m, sh, hs, li, rf⟩ := s
  cases e with
  | rerender b =>
      cases m <;> simp_all [step, GoodState] <;> (subst h; simp_all)
  | toggle =>
      cases m <;> cases sh <;> simp_all [step, GoodState] <;> (subst h; simp_all)
  | docClick inside =>
      cases m <;> cases sh <;> cases li <;> cases rf <;> cases inside <;>
        simp_all [step, GoodState, handleDocumentClick] <;> (subst h; simp_all)
  | unmount =>
      cases m <;> simp_all [step, GoodState] <;> (subst h; simp_all)

lemma runFrom_good : ∀ (es : List Ev) (s t : CState), GoodState s →
    runFrom s es = Except.ok t → GoodState t := by
  intro es
  induction es with
  | nil =>
      intro s t hg h
      simp only [runFrom] at h
      exact Except.ok.inj h ▸ hg
  | cons e es ih =>
      intro s t hg h
      simp only [runFrom] at h
      cases hstep : step e s with
      | ok s1 =>
          rw [hstep] at h
          exact ih s1 t (step_good hg hstep) h
      | error u =>
          rw [hstep] at h
          exact Except.noConfusion h

lemma run_good {sh : Bool} {es : List Ev} {t : CState}
    (h : run sh es = Except.ok t) : GoodState t :=
  runFrom_good es (mount sh) t (mount_good sh) h

/-- On a state satisfying the wiring invariant, a document click never throws:
the listener is attached only while the ref is set, and the handler closes the
panel exactly when the target is outside the help container. -/
lemma docClick_step {s : CState} (hg : GoodState s) (inside : Bool) :
    step (Ev.docClick inside) s =
      Except.ok
        (if s.listener && !inside then { s with helpShowing := false } else s) := by
  obtain ⟨m, sh, hs, li, rf⟩ := s
  cases m <;> cases sh <;> cases li <;> cases rf <;> cases inside <;>
    simp_all [step, GoodState, handleDocumentClick]

lemma step_inert {e : Ev} (hne : e ≠ Ev.rerender true) {s t : CState}
    (hi : Inert s) (h : step e s = Except.ok t) : Inert t := by
  obtain ⟨m, sh, hs, li, rf⟩ := s
  cases e with
  | rerender b =>
      cases b
      · cases m <;> simp_all [step, Inert] <;> (subst h; simp_all)
      · exact absurd rfl hne
  | toggle =>
      cases m <;> simp_all [step, Inert] <;> (subst h; simp_all)
  | docClick inside =>
      simp_all [step, Inert]
      subst h
      simp_all
  | unmount =>
      cases m <;> simp_all [step, Inert] <;> (subst h; simp_all)

lemma runFrom_inert : ∀ (es : List Ev), (∀ e ∈ es, e ≠ Ev.rerender true) →
    ∀ s t : CState, Inert s → runFrom s es = Except.ok t → Inert t := by
  intro es
  induction es with
  | nil =>
      intro _ s t hi h
      simp only [runFrom] at h
      exact Except.ok.inj h ▸ hi
  | cons e es ih =>
      intro hes s t hi h
      simp only [runFrom] at h
      cases hstep : step e s with
      | ok s1 =>
          rw [hstep] at h
          exact ih (fun x hx => hes x (List.mem_cons_of_mem _ hx)) s1 t
            (step_inert (hes e (List.mem_cons_self _ _)) hi hstep) h
      | error u =>
          rw [hstep] at h
          exact Except.noConfusion h

/-- C3: a slider event whose position maps to a zoom value strictly outside
`[minZoom, maxZoom]` never invokes `modifyZoom`, raises no error and changes
no state: the `zoom` callback returns `none` (no call to `modifyZoom`). -/
theorem C3_out_of_range_suppressed (minZoom maxZoom zoomLevel steps val : ℚ)
    (_hlt : minZoom < maxZoom)
    (hout : sliderToZoom val minZoom maxZoom steps < minZoom ∨
      maxZoom < sliderToZoom val minZoom maxZoom steps) :
    zoom minZoom maxZoom zoomLevel steps val = none := by
  unfold zoom
  rw [if_neg]
  intro hgate
  rw [inRangeGate_iff] at hgate
  rcases hout with h | h
  · exact absurd hgate.1 (not_le.mpr h)
  · exact absurd hgate.2 (not_le.mpr h)

/-- C3 witness: with `minZoom = 1`, `maxZoom = 2`, `zoomLevel = 1.5`,
`STEPS = 100` and slider value `150` (which maps to zoom `2.5`), the callback
is suppressed. -/
theorem C3_witness :
    (1 : ℚ) < 2 ∧
      ((2 : ℚ) < sliderToZoom 150 1 2 100) ∧
      zoom 1 2 (3 / 2) 100 150 = none := by
  refine ⟨by norm_num, by norm_num [sliderToZoom], ?_⟩
  exact C3_out_of_range_suppressed 1 2 (3 / 2) 100 150 (by norm_num)
    (Or.inr (by norm_num [sliderToZoom]))

/-- C4: a slider event whose position maps to a zoom value inside
`[minZoom, maxZoom]` (bounds with `minZoom < maxZoom`) invokes `modifyZoom`
exactly once, with `delta = zoomLevelNext - zoomLevel` where
`zoomLevelNext = sliderToZoom val minZoom maxZoom steps`. -/
theorem C4_in_range_forwarded (minZoom maxZoom zoomLevel steps val : ℚ)
    (_hlt : minZoom < maxZoom)
    (hlo : minZoom ≤ sliderToZoom val minZoom maxZoom steps)
    (hhi : sliderToZoom val minZoom maxZoom steps ≤ maxZoom) :
    zoom minZoom maxZoom zoomLevel steps val =
      some (sliderToZoom val minZoom maxZoom steps - zoomLevel) := by
  unfold zoom
  rw [if_pos]
  rw [inRangeGate_iff]
  exact ⟨hlo, hhi⟩

/-- C4 witness: with `minZoom = 1`, `maxZoom = 2`, `zoomLevel = 1.5`,
`STEPS = 100` and slider value `80` (which maps to zoom `1.8`), the callback
is invoked with `delta = 0.3`. -/
theorem C4_witness :
    (1 : ℚ) < 2 ∧
      ((1 : ℚ) ≤ sliderToZoom 80 1 2 100 ∧ sliderToZoom 80 1 2 100 ≤ 2) ∧
      zoom 1 2 (3 / 2) 100 80 = some (3 / 10) := by
  refine ⟨by norm_num, ⟨by norm_num [sliderToZoom], by norm_num [sliderToZoom]⟩, ?_⟩
  have h := C4_in_range_forwarded 1 2 (3 / 2) 100 80 (by norm_num)
    (by norm_num [sliderToZoom]) (by norm_num [sliderToZoom])
  rw [h]
  norm_num [sliderToZoom]

/-- C5: round trip.  For every slider position `p ∈ {0, …, STEPS}` and bounds
with `minZoom < maxZoom` (and `STEPS > 0`),
`toSlider (toZoom p) = p`, exactly over `ℚ`. -/
theorem C5_round_trip (p : ℕ) (minZoom maxZoom steps : ℚ)
    (hlt : minZoom < maxZoom) (hsteps : 0 < steps) (_hp : (p : ℚ) ≤ steps) :
    toSlider (sliderToZoom p minZoom maxZoom steps) minZoom maxZoom steps = p := by
  have hne : maxZoom - minZoom ≠ 0 := sub_ne_zero.mpr (ne_of_gt hlt)
  have hsne : steps ≠ 0 := ne_of_gt hsteps
  unfold toSlider sliderToZoom
  field_simp
  ring

/-- C5 witness: `p = 30`, `minZoom = 1`, `maxZoom = 2`, `STEPS = 100`. -/
theorem C5_witness :
    (1 : ℚ) < 2 ∧ (0 : ℚ) < 100 ∧ ((30 : ℕ) : ℚ) ≤ 100 ∧
      toSlider (sliderToZoom ((30 : ℕ) : ℚ) 1 2 100) 1 2 100 = ((30 : ℕ) : ℚ) :=
  ⟨by norm_num, by norm_num, by norm_num,
    C5_round_trip 30 1 2 100 (by norm_num) (by norm_num) (by norm_num)⟩

/-- C8: for bounds with `minZoom < maxZoom`, the source's `sliderToZoom`
computes exactly the spec's formula `(p * (max - min)) / STEPS + min`; it is a
pure function of its arguments (it is a Lean function, so its result depends
only on its arguments and it has no side effects). -/
theorem C8_sliderToZoom_matches_spec (val minZoom maxZoom steps : ℚ)
    (_hlt : minZoom < maxZoom) :
    sliderToZoom val minZoom maxZoom steps = toZoom_spec val minZoom maxZoom steps :=
  rfl

/-- C8 witness: concrete bounds `1 < 2`. -/
theorem C8_witness :
    (1 : ℚ) < 2 ∧ sliderToZoom 7 1 2 100 = toZoom_spec 7 1 2 100 :=
  ⟨by norm_num, C8_sliderToZoom_matches_spec 7 1 2 100 (by norm_num)⟩

/-- C10: the gate as written,
`zoomLevelNext <= (maxZoom || 0) && zoomLevelNext >= (minZoom || 0)`, is
equivalent to the plain check `minZoom ≤ z ∧ z ≤ maxZoom` for all bounds with
`minZoom < maxZoom` (the `|| 0` fallback replaces a bound only when that bound
is `0`, leaving the comparison unchanged). -/
theorem C10_gate_equivalent (minZoom maxZoom z : ℚ) (_hlt : minZoom < maxZoom) :
    (inRangeGate minZoom maxZoom z = true ↔ (minZoom ≤ z ∧ z ≤ maxZoom)) :=
  inRangeGate_iff minZoom maxZoom z

/-- C10 witness: concrete bounds `0 < 2` (exercising the `|| 0` fallback on
`minZoom = 0`) and `z = 3/2`. -/
theorem C10_witness :
    (0 : ℚ) < 2 ∧
      (inRangeGate 0 2 (3 / 2) = true ↔ ((0 : ℚ) ≤ 3 / 2 ∧ (3 / 2 : ℚ) ≤ 2)) :=
  ⟨by norm_num, C10_gate_equivalent 0 2 (3 / 2) (by norm_num)⟩

/-- C1 counterexample: immediately after mounting with `showHelp = true` the
state is `Closed` (`helpShowing = false`) yet the document click listener IS
attached — the `useEffect` is keyed on `[showHelp]`, not on the open/closed
state, refuting "while the state is Closed the listener is not active". -/
theorem C1_counterexample :
    ¬ (∀ s : CState, run true [] = Except.ok s → s.helpShowing = false →
        s.listener = false) := by
  intro hcl
  have h := hcl (mount true) rfl rfl
  simp [mount] at h

/-- C1 (amended): the listener is attached exactly when the `showHelp` prop is
true and detached when it becomes false or the component unmounts, regardless
of the Open/Closed state; nevertheless no outside interaction fires a
transition from `Closed`, because the handler only ever sets the state to
`Closed`. -/
theorem C1_listener_tracks_showHelp (sh : Bool) (es : List Ev) (s : CState)
    (hrun : run sh es = Except.ok s) :
    (s.mounted = true → s.listener = s.showHelp) ∧
    (s.mounted = false → s.listener = false) ∧
    (s.helpShowing = false → ∀ (inside : Bool) (t : CState),
      step (Ev.docClick inside) s = Except.ok t → t.helpShowing = false) := by
  have hg := run_good hrun
  refine ⟨?_, ?_, ?_⟩
  · intro hm
    rw [hg.1, hm, Bool.true_and]
  · intro hm
    rw [hg.1, hm, Bool.false_and]
  · intro hclosed inside t hstep
    rw [docClick_step hg inside] at hstep
    obtain rfl := Except.ok.inj hstep
    split <;> simp_all

/-- C1 witness: mounting with `showHelp = true` and no further events reaches
a state where the listener tracks the prop. -/
theorem C1_witness :
    run true [] = Except.ok (mount true) ∧
      (mount true).listener = (mount true).showHelp :=
  ⟨rfl, (C1_listener_tracks_showHelp true [] (mount true) rfl).1 rfl⟩

/-- C2: with the anchor ref unset, `handleDocumentClick` evaluates
`helpContainerRef.current.contains(e.target)` on an unset ref and throws a
TypeError (for an inside target and for an outside target alike), instead of
the spec's fail-safe "leave the state unchanged without throwing". -/
theorem C2_missing_ref_throws :
    handleDocumentClick false true true = Except.error () ∧
    handleDocumentClick false false true = Except.error () :=
  ⟨rfl, rfl⟩

/-- C6: in any reachable state that is `Open` with the listener attached, a
document click with target outside the help container transitions the state to
`Closed`, and one with target inside leaves it `Open` (and neither throws). -/
theorem C6_outside_click_dismisses (sh : Bool) (es : List Ev) (s : CState)
    (hrun : run sh es = Except.ok s) (hopen : s.helpShowing = true)
    (hlis : s.listener = true) :
    (∃ t : CState, step (Ev.docClick false) s = Except.ok t ∧
      t.helpShowing = false) ∧
    (∃ t : CState, step (Ev.docClick true) s = Except.ok t ∧
      t.helpShowing = true) := by
  have hg := run_good hrun
  constructor
  · refine ⟨{ s with helpShowing := false }, ?_, rfl⟩
    rw [docClick_step hg false]
    simp [hlis]
  · refine ⟨s, ?_, hopen⟩
    rw [docClick_step hg true]
    simp

/-- C6 witness: mount with `showHelp = true`, press the toggle once; the state
is `Open` with the listener attached, and both click outcomes follow. -/
theorem C6_witness :
    run true [Ev.toggle] = Except.ok (CState.mk true true true true true) ∧
      ((∃ t : CState, step (Ev.docClick false) (CState.mk true true true true true) =
          Except.ok t ∧ t.helpShowing = false) ∧
        (∃ t : CState, step (Ev.docClick true) (CState.mk true true true true true) =
          Except.ok t ∧ t.helpShowing = true)) :=
  ⟨rfl, C6_outside_click_dismisses true [Ev.toggle]
    (CState.mk true true true true true) rfl rfl rfl⟩

/-- C7: with the `showHelp` flag false throughout (mounted with `false` and
never re-rendered with `true`), every event sequence leaves the listener
detached, the state `Closed`, and the help toggle/panel unrendered. -/
theorem C7_showHelp_false_inert (es : List Ev) (s : CState)
    (hes : ∀ e ∈ es, e ≠ Ev.rerender true)
    (hrun : run false es = Except.ok s) :
    s.listener = false ∧ s.helpShowing = false ∧ helpRendered s = false := by
  have hi : Inert s :=
    runFrom_inert es hes (mount false) s (by simp [Inert, mount]) hrun
  exact ⟨hi.2.1, hi.2.2.1, by simp [helpRendered, hi.1]⟩

/-- C7 witness: mounted with `showHelp = false`, a toggle press, an outside
document click and an unmount leave the instance inert. -/
theorem C7_witness :
    run false [Ev.toggle, Ev.docClick false, Ev.unmount] =
        Except.ok (CState.mk false false false false false) ∧
      ((CState.mk false false false false false).listener = false ∧
        (CState.mk false false false false false).helpShowing = false ∧
        helpRendered (CState.mk false false false false false) = false) :=
  ⟨rfl, C7_showHelp_false_inert [Ev.toggle, Ev.docClick false, Ev.unmount]
    (CState.mk false false false false false) (by decide) rfl⟩

/-- C9: the document click dismissal can only close the panel, never open it:
from any reachable state, a document click never throws, the state after it is
`Open` only if it was already `Open`, and — when the listener is attached, so
the handler actually runs — only if the target was inside the anchor region. -/
theorem C9_dismissal_never_opens (sh : Bool) (es : List Ev) (s : CState)
    (hrun : run sh es = Except.ok s) (inside : Bool) :
    ∃ t : CState, step (Ev.docClick inside) s = Except.ok t ∧
      (t.helpShowing = true → s.helpShowing = true) ∧
      (s.listener = true → t.helpShowing = true → inside = true) := by
  have hg := run_good hrun
  refine ⟨_, docClick_step hg inside, ?_, ?_⟩
  · split
    · simp
    · exact fun h => h
  · intro hlis
    cases inside <;> simp [hlis]

/-- C9 witness: from the reachable `Open` state, an outside click yields a
state that is not `Open`; the theorem applies with all hypotheses concrete. -/
theorem C9_witness :
    run true [Ev.toggle] = Except.ok (CState.mk true true true true true) ∧
      (∃ t : CState, step (Ev.docClick false) (CState.mk true true true true true) =
          Except.ok t ∧
        (t.helpShowing = true →
          (CState.mk true true true true true).helpShowing = true) ∧
        ((CState.mk true true true true true).listener = true →
          t.helpShowing = true → false = true)) :=
  ⟨rfl, C9_dismissal_never_opens true [Ev.toggle]
    (CState.mk true true true true true) rfl false⟩

end GraphControls
